import Mathlib

set_option maxHeartbeats 1000000

/-!
Verification of the `stubmethods` analysis core: a shallow embedding of
`GetStubInfo` and its helper analyzers (`fromCallExpr`, `fromReturnStmt`,
`fromValueSpec`, `fromAssignStmt`, `ifaceType`, `ifaceObjFromType`,
`concreteType`, `enclosingFunction`), together with theorems about the
behaviour of each analyzer.

Go's `token.Pos` is an `Int`; `go/types` types are embedded as the
inductive `GoType` (with `types.Unalias` as an explicit function);
the `types.Info` maps are embedded as functions keyed by node identity;
a run that dereferences a nil pointer is modelled by `Outcome.panic`.
-/

namespace Stubmethods

/-- A `token.Pos`: a byte offset inside the file set. -/
abbrev Pos := Int

/-- The identity of a `*types.TypeName`: its declaring package (`Pkg()`,
`none` when the object has no declaring package) and its `Name()`. -/
structure TypeName where
  pkg : Option String
  name : String
  deriving DecidableEq, Repr

/-- A `*types.Named`: its type name object and whether
`types.IsInterface` holds of it (i.e. its underlying type is an
interface). -/
structure Named where
  obj : TypeName
  isInterface : Bool
  deriving DecidableEq, Repr

/-- A `go/types` type, restricted to the shapes the analyzer inspects:
named types, aliases (unwrapped by `types.Unalias`), pointers,
function signatures, slices, basic types and a catch-all. -/
inductive GoType where
  | named (n : Named)
  | alias (target : GoType)
  | pointer (elem : GoType)
  | signature (params : List GoType) (variadic : Bool)
  | slice (elem : GoType)
  | basic (name : String)
  | other
  deriving Repr

/-- An `ast.Expr`: every expression carries a node identity (the key used
by the `types.Info` maps) and its source span `Pos()`/`End()`; a call
expression additionally carries its `Fun` and `Args`. -/
inductive Expr where
  | basic (id : Nat) (spos epos : Pos)
  | call (id : Nat) (spos epos : Pos) (fn : Expr) (args : List Expr)
  deriving Repr

/-- The node identity of an expression. -/
def Expr.id : Expr → Nat
  | .basic i _ _ => i
  | .call i _ _ _ _ => i

/-- The span start `e.Pos()`. -/
def Expr.spos : Expr → Pos
  | .basic _ s _ => s
  | .call _ s _ _ _ => s

/-- The span end `e.End()`. -/
def Expr.epos : Expr → Pos
  | .basic _ _ e => e
  | .call _ _ e _ _ => e

/-- An `*ast.ValueSpec`: its optional declared `Type` and its
initializer expressions `Values`. -/
structure ValueSpec where
  type? : Option Expr
  values : List Expr

/-- An `*ast.ReturnStmt`: its span and its operand list `Results`. -/
structure ReturnStmt where
  spos : Pos
  epos : Pos
  results : List Expr

/-- An `*ast.AssignStmt`: its left-hand and right-hand operand lists. -/
structure AssignStmt where
  lhs : List Expr
  rhs : List Expr

/-- An `*ast.Field` of a result list; only its `Type` expression is
inspected. -/
structure Field where
  type : Expr

/-- An `*ast.FuncType`: its `Results` field list, which is a nil pointer
(`none`) for a function with no declared results. -/
structure FuncType where
  results : Option (List Field)

/-- An `ast.Node` on the enclosing path, restricted to the shapes the
type switches of `GetStubInfo` and `enclosingFunction` distinguish. -/
inductive Node where
  | valueSpec (spec : ValueSpec)
  | returnStmt (ret : ReturnStmt)
  | assignStmt (assign : AssignStmt)
  | callExpr (fn : Expr) (args : List Expr)
  | funcDecl (nameId : Nat) (ftype : FuncType)
  | funcLit (litId : Nat) (ftype : FuncType)
  | other

/-- The `*types.Info` component: `types` is the `Types` map (node
identity to recorded type) and `defs` records which identifiers have an
entry in the `Defs` map. -/
structure Info where
  types : Nat → Option GoType
  defs : Nat → Bool

/-- The record `StubInfo`, the sole output: the file set handle, the
interface's type name object, the concrete named type and the
by-pointer flag. -/
structure StubInfo where
  Fset : Nat
  Interface : TypeName
  Concrete : Named
  Pointer : Bool
  deriving DecidableEq, Repr

/-- The outcome of running a piece of Go code: either it terminates
normally with a value or it panics (nil-pointer dereference or
out-of-range index). -/
inductive Outcome (α : Type) where
  | panic
  | ok (val : α)
  deriving DecidableEq, Repr

/-- The function `types.Unalias`: follow the chain of alias declarations to the type
they denote. -/
def Unalias : GoType → GoType
  | .alias target => Unalias target
  | t => t

/-- The helper `ifaceObjFromType`: the named-interface object denoted by a type,
accepting a package-less named interface only when it is the built-in
`error`. -/
def ifaceObjFromType (t : GoType) : Option TypeName :=
  match Unalias t with
  | .named named =>
      if !named.isInterface then none
      else if named.obj.pkg = none ∧ named.obj.name ≠ "error" then none
      else some named.obj
  | _ => none

/-- The helper `ifaceType`: the named interface type to which the expression `e`
refers, if any, read off the recorded `Types` entry of `e`. -/
def ifaceType (info : Info) (e : Expr) : Option TypeName :=
  match info.types e.id with
  | none => none
  | some t => ifaceObjFromType t

/-- The type-level part of `concreteType`: unwrap aliases, strip at most
one level of pointer (setting the by-pointer flag), unwrap aliases
again, and require a named type. -/
def concreteTypeOf (t0 : GoType) : Option Named × Bool :=
  match Unalias t0 with
  | .pointer elem =>
      match Unalias elem with
      | .named n => (some n, true)
      | _ => (none, false)
  | _ =>
      match Unalias t0 with
      | .named n => (some n, false)
      | _ => (none, false)

/-- The helper `concreteType`: resolve the expression's recorded type to a named
type plus a by-pointer flag. -/
def concreteType (info : Info) (e : Expr) : Option Named × Bool :=
  match info.types e.id with
  | none => (none, false)
  | some t => concreteTypeOf t

/-- The scan shared by all four analyzers: return the first expression
of the list (with its index) whose span contains `pos` under the
inclusive test `Pos() <= pos && pos <= End()`, counting from `i`. -/
def findContainingFrom (pos : Pos) (i : Nat) : List Expr → Option (Nat × Expr)
  | [] => none
  | e :: rest =>
      if e.spos ≤ pos ∧ pos ≤ e.epos then some (i, e)
      else findContainingFrom pos (i + 1) rest

/-- The first expression of the list whose span contains `pos`, with its
index. -/
def findContaining (pos : Pos) (es : List Expr) : Option (Nat × Expr) :=
  findContainingFrom pos 0 es

/-- The helper `enclosingFunction`: the declared signature syntax of the innermost
function on the path that has recorded type information (`Defs` entry
for a declaration, `Types` entry for a literal). -/
def enclosingFunction (path : List Node) (info : Info) : Option FuncType :=
  match path with
  | [] => none
  | node :: rest =>
      match node with
      | .funcDecl nameId ftype =>
          if info.defs nameId then some ftype else enclosingFunction rest info
      | .funcLit litId ftype =>
          if (info.types litId).isSome then some ftype else enclosingFunction rest info
      | _ => enclosingFunction rest info

/-- The parameter-type selection of `fromCallExpr` (its `paramType`
block): for a variadic signature and an argument index at or past the
last fixed parameter, the element type of the variadic slice parameter;
for an in-range index the fixed parameter type; `none` when the index
is out of range of a non-variadic signature. `Tuple.At` panics when its
index is out of range. -/
def paramTypeFor (params : List GoType) (variadic : Bool) (argIdx : Nat) :
    Outcome (Option GoType) :=
  if variadic = true ∧ argIdx + 1 ≥ params.length then
    match params.get? (params.length - 1) with
    | none => .panic
    | some v =>
        match v with
        | .slice elem => .ok (some elem)
        | _ => .ok none
  else if argIdx < params.length then
    match params.get? argIdx with
    | none => .panic
    | some t => .ok (some t)
  else .ok none

/-- The callee lookup of `fromCallExpr`: the recorded type of `call.Fun`
must exist and, after alias unwrapping, be a function signature. -/
def calleeSignature (info : Info) (fn : Expr) : Option (List GoType × Bool) :=
  match info.types fn.id with
  | none => none
  | some tvType =>
      match Unalias tvType with
      | .signature params variadic => some (params, variadic)
      | _ => none

/-- The analyzer `fromCallExpr`: analyze a call's signature against the argument
containing `pos` to deduce the concrete and interface types. -/
def fromCallExpr (fset : Nat) (info : Info) (pos : Pos) (fn : Expr) (args : List Expr) :
    Outcome (Option StubInfo) :=
  match findContaining pos args with
  | none => .ok none
  | some (argIdx, arg) =>
      match concreteType info arg with
      | (none, _) => .ok none
      | (some concType, pointer) =>
          if concType.obj.pkg = none then .ok none
          else
            match calleeSignature info fn with
            | none => .ok none
            | some (params, variadic) =>
                match paramTypeFor params variadic argIdx with
                | .panic => .panic
                | .ok none => .ok none
                | .ok (some paramType) =>
                    match ifaceObjFromType paramType with
                    | none => .ok none
                    | some iface =>
                        .ok (some { Fset := fset, Concrete := concType,
                                    Pointer := pointer, Interface := iface })

/-- The explicit errors `fromReturnStmt` can report. -/
inductive RErr where
  | posNotInReturn (pos spos epos : Pos)
  | noEnclosingFunc
  | arityMismatch (operands results : Nat)
  deriving DecidableEq, Repr

/-- The analyzer `fromReturnStmt`: analyze a return statement to extract a concrete
type being returned as an interface type. Accessing `Results.List` of a
function type whose `Results` is nil panics. -/
def fromReturnStmt (fset : Nat) (info : Info) (pos : Pos) (path : List Node)
    (ret : ReturnStmt) : Outcome (Option StubInfo × Option RErr) :=
  match findContaining pos ret.results with
  | none => .ok (none, some (.posNotInReturn pos ret.spos ret.epos))
  | some (returnIdx, r) =>
      match concreteType info r with
      | (none, _) => .ok (none, none)
      | (some concType, pointer) =>
          if concType.obj.pkg = none then .ok (none, none)
          else
            match enclosingFunction path info with
            | none => .ok (none, some .noEnclosingFunc)
            | some funcType =>
                match funcType.results with
                | none => .panic
                | some fields =>
                    if fields.length ≠ ret.results.length then
                      .ok (none, some (.arityMismatch ret.results.length fields.length))
                    else
                      match fields.get? returnIdx with
                      | none => .panic
                      | some fld =>
                          match ifaceType info fld.type with
                          | none => .ok (none, none)
                          | some iface =>
                              .ok (some { Fset := fset, Concrete := concType,
                                          Pointer := pointer, Interface := iface }, none)

/-- The helper `ifaceType` applied to a possibly-nil expression node: a map lookup
at a nil key finds nothing. -/
def ifaceTypeOpt (info : Info) : Option Expr → Option TypeName
  | none => none
  | some e => ifaceType info e

/-- The conversion rewrite of `fromValueSpec`: the expected interface
syntax is the declared type when present; otherwise, when the
initializer is a single-argument call `I(v)`, its callee is the
interface syntax and its sole argument becomes the concrete operand. -/
def specIfaceAndRhs (type? : Option Expr) (rhs0 : Expr) : Option Expr × Expr :=
  match type?, rhs0 with
  | none, .call _ _ _ cfn [a] => (some cfn, a)
  | t?, r => (t?, r)

/-- The analyzer `fromValueSpec`: analyze a variable declaration such as
`var x io.Writer = v`, treating `var x = I(v)` (no declared type, the
initializer a single-argument call) as a conversion whose callee is the
expected interface syntax. -/
def fromValueSpec (fset : Nat) (info : Info) (spec : ValueSpec) (pos : Pos) :
    Option StubInfo :=
  match findContaining pos spec.values with
  | none => none
  | some (_, rhs0) =>
      match concreteType info (specIfaceAndRhs spec.type? rhs0).2 with
      | (none, _) => none
      | (some concType, pointer) =>
          if concType.obj.pkg = none then none
          else
            match ifaceTypeOpt info (specIfaceAndRhs spec.type? rhs0).1 with
            | none => none
            | some ifaceObj =>
                some { Fset := fset, Concrete := concType,
                       Interface := ifaceObj, Pointer := pointer }

/-- The analyzer `fromAssignStmt`: analyze an assignment, pairing the right-hand
operand containing `pos` with the left-hand operand at the same index
(defensively failing when the left-hand list is shorter). -/
def fromAssignStmt (fset : Nat) (info : Info) (assign : AssignStmt) (pos : Pos) :
    Option StubInfo :=
  match findContaining pos assign.rhs with
  | none => none
  | some (i, r) =>
      match assign.lhs.get? i with
      | none => none
      | some lhs =>
          match ifaceType info lhs with
          | none => none
          | some ifaceObj =>
              match concreteType info r with
              | (none, _) => none
              | (some concType, pointer) =>
                  if concType.obj.pkg = none then none
                  else some { Fset := fset, Concrete := concType,
                              Interface := ifaceObj, Pointer := pointer }

/-- The dispatch loop of `GetStubInfo` over the remaining path; `path`
is the full original path, which is what the source passes on to
`fromReturnStmt`. -/
def GetStubInfoAux (fset : Nat) (info : Info) (path : List Node) (pos : Pos) :
    List Node → Outcome (Option StubInfo)
  | [] => .ok none
  | node :: rest =>
      match node with
      | .valueSpec spec => .ok (fromValueSpec fset info spec pos)
      | .returnStmt ret =>
          match fromReturnStmt fset info pos path ret with
          | .panic => .panic
          | .ok (si, _) => .ok si
      | .assignStmt assign => .ok (fromAssignStmt fset info assign pos)
      | .callExpr fn args =>
          match fromCallExpr fset info pos fn args with
          | .panic => .panic
          | .ok (some si) => .ok (some si)
          | .ok none => GetStubInfoAux fset info path pos rest
      | _ => GetStubInfoAux fset info path pos rest

/-- The dispatcher `GetStubInfo`: walk the node path innermost to outermost and
dispatch to the analyzer matching the node's shape. -/
def GetStubInfo (fset : Nat) (info : Info) (path : List Node) (pos : Pos) :
    Outcome (Option StubInfo) :=
  GetStubInfoAux fset info path pos path

/-- Replace the recorded type of the node with identity `tid` by `t`,
leaving every other entry of the `Types` map unchanged. -/
def Info.setType (info : Info) (tid : Nat) (t : GoType) : Info :=
  { info with types := fun n => if n = tid then some t else info.types n }

/-- A node the dispatch loop walks past without returning: a node
matching no case of the type switch, or a call expression whose
analysis fails. -/
def skipsNode (fset : Nat) (info : Info) (pos : Pos) : Node → Prop
  | .callExpr fn args => fromCallExpr fset info pos fn args = .ok none
  | .funcDecl _ _ => True
  | .funcLit _ _ => True
  | .other => True
  | _ => False

/-! ## Helper lemmas -/

theorem Unalias_alias (t : GoType) : Unalias (GoType.alias t) = Unalias t := rfl

theorem ifaceObjFromType_alias (t : GoType) :
    ifaceObjFromType (GoType.alias t) = ifaceObjFromType t := by
  simp only [ifaceObjFromType, Unalias_alias]

theorem concreteTypeOf_alias (t : GoType) :
    concreteTypeOf (GoType.alias t) = concreteTypeOf t := by
  simp only [concreteTypeOf, Unalias_alias]

theorem ifaceObjFromType_some_pkg {t : GoType} {o : TypeName}
    (h : ifaceObjFromType t = some o) : o.pkg ≠ none ∨ o.name = "error" := by
  unfold ifaceObjFromType at h
  split at h
  · split at h
    · exact absurd h (by simp)
    · split at h
      · exact absurd h (by simp)
      · next hcond =>
          obtain rfl : _ = o := Option.some.inj h
          tauto
  · exact absurd h (by simp)

theorem ifaceType_some_pkg {info : Info} {e : Expr} {o : TypeName}
    (h : ifaceType info e = some o) : o.pkg ≠ none ∨ o.name = "error" := by
  unfold ifaceType at h
  split at h
  · exact absurd h (by simp)
  · exact ifaceObjFromType_some_pkg h

theorem ifaceTypeOpt_some_pkg {info : Info} {oe : Option Expr} {o : TypeName}
    (h : ifaceTypeOpt info oe = some o) : o.pkg ≠ none ∨ o.name = "error" := by
  cases oe with
  | none => exact absurd h (by simp [ifaceTypeOpt])
  | some e => exact ifaceType_some_pkg h

theorem findContainingFrom_succ (pos : Pos) (es : List Expr) :
    ∀ i, findContainingFrom pos (i + 1) es
      = Option.map (fun p => (p.1 + 1, p.2)) (findContainingFrom pos i es) := by
  induction es with
  | nil => intro i; rfl
  | cons e rest ih =>
      intro i
      by_cases hc : e.spos ≤ pos ∧ pos ≤ e.epos
      · simp [findContainingFrom, hc]
      · simp only [findContainingFrom, if_neg hc]
        exact ih (i + 1)

theorem findContaining_iff (pos : Pos) (es : List Expr) (i : Nat) (e : Expr) :
    findContaining pos es = some (i, e) ↔
      (es.get? i = some e ∧ e.spos ≤ pos ∧ pos ≤ e.epos ∧
        ∀ j e2, j < i → es.get? j = some e2 → ¬(e2.spos ≤ pos ∧ pos ≤ e2.epos)) := by
  induction es generalizing i with
  | nil => simp [findContaining, findContainingFrom]
  | cons e0 rest ih =>
      by_cases hc : e0.spos ≤ pos ∧ pos ≤ e0.epos
      · simp only [findContaining, findContainingFrom, if_pos hc]
        constructor
        · intro h
          simp only [Option.some.injEq, Prod.mk.injEq] at h
          obtain ⟨rfl, rfl⟩ := h
          refine ⟨rfl, hc.1, hc.2, ?_⟩
          intro j e2 hj
          exact absurd hj (Nat.not_lt_zero j)
        · rintro ⟨hget, _, _, hfirst⟩
          cases i with
          | zero =>
              obtain rfl : e0 = e := by simpa using hget
              rfl
          | succ i0 =>
              exact absurd hc (hfirst 0 e0 (Nat.succ_pos i0) rfl)
      · simp only [findContaining, findContainingFrom, if_neg hc] at *
        rw [findContainingFrom_succ pos rest 0]
        constructor
        · intro h
          obtain ⟨⟨i0, e1⟩, hrest, heq⟩ := Option.map_eq_some'.mp h
          simp only [Prod.mk.injEq] at heq
          obtain ⟨rfl, rfl⟩ := heq
          obtain ⟨hget, h1, h2, hfirst⟩ := (ih i0).mp hrest
          refine ⟨by simpa using hget, h1, h2, ?_⟩
          intro j e2 hj hg
          cases j with
          | zero =>
              obtain rfl : e0 = e2 := by simpa using hg
              exact hc
          | succ j0 =>
              exact hfirst j0 e2 (Nat.lt_of_succ_lt_succ hj) (by simpa using hg)
        · rintro ⟨hget, h1, h2, hfirst⟩
          cases i with
          | zero =>
              obtain rfl : e0 = e := by simpa using hget
              exact absurd ⟨h1, h2⟩ hc
          | succ i0 =>
              have hrest : findContainingFrom pos 0 rest = some (i0, e) := by
                refine (ih i0).mpr ⟨by simpa using hget, h1, h2, ?_⟩
                intro j e2 hj hg
                exact hfirst (j + 1) e2 (Nat.succ_lt_succ hj) (by simpa using hg)
              rw [hrest]
              rfl

theorem setType_types {info : Info} {tid : Nat} {u : GoType} (n : Nat) :
    (info.setType tid u).types n = if n = tid then some u else info.types n := rfl

theorem setType_defs {info : Info} {tid : Nat} {u : GoType} :
    (info.setType tid u).defs = info.defs := rfl

theorem ifaceType_set_alias {info : Info} {tid : Nat} {t : GoType}
    (h : info.types tid = some t) (e : Expr) :
    ifaceType (info.setType tid (GoType.alias t)) e = ifaceType info e := by
  unfold ifaceType
  rw [setType_types]
  by_cases hid : e.id = tid
  · rw [if_pos hid, hid, h]
    exact ifaceObjFromType_alias t
  · rw [if_neg hid]

theorem ifaceTypeOpt_set_alias {info : Info} {tid : Nat} {t : GoType}
    (h : info.types tid = some t) (oe : Option Expr) :
    ifaceTypeOpt (info.setType tid (GoType.alias t)) oe = ifaceTypeOpt info oe := by
  cases oe with
  | none => rfl
  | some e => exact ifaceType_set_alias h e

theorem concreteType_set_alias {info : Info} {tid : Nat} {t : GoType}
    (h : info.types tid = some t) (e : Expr) :
    concreteType (info.setType tid (GoType.alias t)) e = concreteType info e := by
  unfold concreteType
  rw [setType_types]
  by_cases hid : e.id = tid
  · rw [if_pos hid, hid, h]
    exact concreteTypeOf_alias t
  · rw [if_neg hid]

theorem calleeSignature_set_alias {info : Info} {tid : Nat} {t : GoType}
    (h : info.types tid = some t) (fn : Expr) :
    calleeSignature (info.setType tid (GoType.alias t)) fn = calleeSignature info fn := by
  unfold calleeSignature
  rw [setType_types]
  by_cases hid : fn.id = tid
  · rw [if_pos hid, hid, h]
    rfl
  · rw [if_neg hid]

theorem enclosingFunction_set_alias {info : Info} {tid : Nat} {t : GoType}
    (h : info.types tid = some t) (path : List Node) :
    enclosingFunction path (info.setType tid (GoType.alias t)) = enclosingFunction path info := by
  induction path with
  | nil => rfl
  | cons node rest ih =>
      cases node with
      | funcDecl nameId ftype =>
          simp only [enclosingFunction, setType_defs]
          split <;> [rfl; exact ih]
      | funcLit litId ftype =>
          simp only [enclosingFunction, setType_types]
          by_cases hid : litId = tid
          · subst hid
            simp [h]
          · simp only [if_neg hid]
            by_cases hs : (info.types litId).isSome = true
            · simp [hs]
            · simp [hs, ih]
      | valueSpec spec => exact ih
      | returnStmt ret => exact ih
      | assignStmt assign => exact ih
      | callExpr fn args => exact ih
      | other => exact ih

theorem fromValueSpec_set_alias {info : Info} {tid : Nat} {t : GoType}
    (h : info.types tid = some t) (fset : Nat) (spec : ValueSpec) (pos : Pos) :
    fromValueSpec fset (info.setType tid (GoType.alias t)) spec pos
      = fromValueSpec fset info spec pos := by
  unfold fromValueSpec
  simp only [concreteType_set_alias h, ifaceTypeOpt_set_alias h]

theorem fromAssignStmt_set_alias {info : Info} {tid : Nat} {t : GoType}
    (h : info.types tid = some t) (fset : Nat) (assign : AssignStmt) (pos : Pos) :
    fromAssignStmt fset (info.setType tid (GoType.alias t)) assign pos
      = fromAssignStmt fset info assign pos := by
  unfold fromAssignStmt
  simp only [concreteType_set_alias h, ifaceType_set_alias h]

theorem fromCallExpr_set_alias {info : Info} {tid : Nat} {t : GoType}
    (h : info.types tid = some t) (fset : Nat) (pos : Pos) (fn : Expr) (args : List Expr) :
    fromCallExpr fset (info.setType tid (GoType.alias t)) pos fn args
      = fromCallExpr fset info pos fn args := by
  unfold fromCallExpr
  simp only [concreteType_set_alias h, calleeSignature_set_alias h]

theorem fromReturnStmt_set_alias {info : Info} {tid : Nat} {t : GoType}
    (h : info.types tid = some t) (fset : Nat) (pos : Pos) (path : List Node)
    (ret : ReturnStmt) :
    fromReturnStmt fset (info.setType tid (GoType.alias t)) pos path ret
      = fromReturnStmt fset info pos path ret := by
  unfold fromReturnStmt
  simp only [concreteType_set_alias h, enclosingFunction_set_alias h, ifaceType_set_alias h]

theorem GetStubInfoAux_set_alias {info : Info} {tid : Nat} {t : GoType}
    (h : info.types tid = some t) (fset : Nat) (path : List Node) (pos : Pos) :
    ∀ l, GetStubInfoAux fset (info.setType tid (GoType.alias t)) path pos l
      = GetStubInfoAux fset info path pos l := by
  intro l
  induction l with
  | nil => rfl
  | cons node rest ih =>
      cases node with
      | valueSpec spec =>
          simp only [GetStubInfoAux, fromValueSpec_set_alias h]
      | returnStmt ret =>
          simp only [GetStubInfoAux, fromReturnStmt_set_alias h]
      | assignStmt assign =>
          simp only [GetStubInfoAux, fromAssignStmt_set_alias h]
      | callExpr fn args =>
          simp only [GetStubInfoAux, fromCallExpr_set_alias h]
          split <;> simp [ih]
      | funcDecl nameId ftype => exact ih
      | funcLit litId ftype => exact ih
      | other => exact ih

theorem fromValueSpec_interface {fset : Nat} {info : Info} {spec : ValueSpec} {pos : Pos}
    {si : StubInfo} (h : fromValueSpec fset info spec pos = some si) :
    si.Interface.pkg ≠ none ∨ si.Interface.name = "error" := by
  unfold fromValueSpec at h
  split at h
  · exact absurd h (by simp)
  · split at h
    · exact absurd h (by simp)
    · split at h
      · exact absurd h (by simp)
      · split at h
        · exact absurd h (by simp)
        · next hiface =>
            obtain rfl := Option.some.inj h
            simpa using ifaceTypeOpt_some_pkg hiface

theorem fromAssignStmt_interface {fset : Nat} {info : Info} {assign : AssignStmt} {pos : Pos}
    {si : StubInfo} (h : fromAssignStmt fset info assign pos = some si) :
    si.Interface.pkg ≠ none ∨ si.Interface.name = "error" := by
  unfold fromAssignStmt at h
  split at h
  · exact absurd h (by simp)
  · split at h
    · exact absurd h (by simp)
    · split at h
      · exact absurd h (by simp)
      · next hiface =>
          split at h
          · exact absurd h (by simp)
          · split at h
            · exact absurd h (by simp)
            · obtain rfl := Option.some.inj h
              simpa using ifaceType_some_pkg hiface

theorem fromCallExpr_interface {fset : Nat} {info : Info} {pos : Pos} {fn : Expr}
    {args : List Expr} {si : StubInfo}
    (h : fromCallExpr fset info pos fn args = Outcome.ok (some si)) :
    si.Interface.pkg ≠ none ∨ si.Interface.name = "error" := by
  unfold fromCallExpr at h
  split at h
  · exact absurd h (by simp)
  · split at h
    · exact absurd h (by simp)
    · split at h
      · exact absurd h (by simp)
      · split at h
        · exact absurd h (by simp)
        · split at h
          · exact absurd h (by simp)
          · exact absurd h (by simp)
          · split at h
            · exact absurd h (by simp)
            · next hiface =>
                simp only [Outcome.ok.injEq] at h
                obtain rfl := Option.some.inj h
                simpa using ifaceObjFromType_some_pkg hiface

theorem fromReturnStmt_interface {fset : Nat} {info : Info} {pos : Pos} {path : List Node}
    {ret : ReturnStmt} {si : StubInfo} {err : Option RErr}
    (h : fromReturnStmt fset info pos path ret = Outcome.ok (some si, err)) :
    si.Interface.pkg ≠ none ∨ si.Interface.name = "error" := by
  unfold fromReturnStmt at h
  split at h
  · exact absurd h (by simp)
  · split at h
    · exact absurd h (by simp)
    · split at h
      · exact absurd h (by simp)
      · split at h
        · exact absurd h (by simp)
        · split at h
          · exact absurd h (by simp)
          · split at h
            · exact absurd h (by simp)
            · split at h
              · exact absurd h (by simp)
              · split at h
                · exact absurd h (by simp)
                · next hiface =>
                    simp only [Outcome.ok.injEq, Prod.mk.injEq] at h
                    obtain ⟨h1, -⟩ := h
                    cases Option.some.inj h1
                    simpa using ifaceType_some_pkg hiface

theorem GetStubInfoAux_interface {fset : Nat} {info : Info} {path : List Node} {pos : Pos}
    {si : StubInfo} :
    ∀ l, GetStubInfoAux fset info path pos l = Outcome.ok (some si) →
      si.Interface.pkg ≠ none ∨ si.Interface.name = "error" := by
  intro l
  induction l with
  | nil => intro h; exact absurd h (by simp [GetStubInfoAux])
  | cons node rest ih =>
      intro h
      cases node with
      | valueSpec spec =>
          simp only [GetStubInfoAux, Outcome.ok.injEq] at h
          exact fromValueSpec_interface h
      | returnStmt ret =>
          simp only [GetStubInfoAux] at h
          split at h
          · exact absurd h (by simp)
          · simp only [Outcome.ok.injEq] at h
            subst h
            exact fromReturnStmt_interface (by assumption)
      | assignStmt assign =>
          simp only [GetStubInfoAux, Outcome.ok.injEq] at h
          exact fromAssignStmt_interface h
      | callExpr fn args =>
          simp only [GetStubInfoAux] at h
          split at h
          · exact absurd h (by simp)
          · next si2 heq =>
              simp only [Outcome.ok.injEq, Option.some.injEq] at h
              subst h
              exact fromCallExpr_interface heq
          · exact ih h
      | funcDecl nameId ftype => exact ih h
      | funcLit litId ftype => exact ih h
      | other => exact ih h

theorem findContaining_lt {pos : Pos} {es : List Expr} {i : Nat} {e : Expr}
    (h : findContaining pos es = some (i, e)) : i < es.length ∧ es.get? i = some e := by
  have hget := ((findContaining_iff pos es i e).mp h).1
  refine ⟨?_, hget⟩
  by_contra hlt
  push_neg at hlt
  rw [List.get?_eq_none.mpr hlt] at hget
  exact absurd hget (by simp)

theorem GetStubInfoAux_skips {fset : Nat} {info : Info} {pos : Pos} :
    ∀ (pre path rest : List Node) (assign : AssignStmt),
      (∀ node ∈ pre, skipsNode fset info pos node) →
      GetStubInfoAux fset info path pos (pre ++ Node.assignStmt assign :: rest)
        = Outcome.ok (fromAssignStmt fset info assign pos) := by
  intro pre
  induction pre with
  | nil => intro path rest assign _; rfl
  | cons node pre2 ih =>
      intro path rest assign hskip
      have hn := hskip node (List.mem_cons_self node pre2)
      have hrest : ∀ n ∈ pre2, skipsNode fset info pos n :=
        fun n hm => hskip n (List.mem_cons_of_mem node hm)
      cases node with
      | callExpr fn args =>
          have hn2 : fromCallExpr fset info pos fn args = Outcome.ok none := hn
          simp only [List.cons_append, GetStubInfoAux]
          rw [hn2]
          exact ih path rest assign hrest
      | funcDecl nameId ftype => exact ih path rest assign hrest
      | funcLit litId ftype => exact ih path rest assign hrest
      | other => exact ih path rest assign hrest
      | valueSpec spec => exact (hn : False).elim
      | returnStmt ret => exact (hn : False).elim
      | assignStmt a2 => exact (hn : False).elim

theorem paramTypeFor_variadic {ps : List GoType} {elem : GoType} {argIdx : Nat}
    (h : ps.length ≤ argIdx) :
    paramTypeFor (ps ++ [GoType.slice elem]) true argIdx = Outcome.ok (some elem) := by
  unfold paramTypeFor
  have hcond : (true = true ∧ argIdx + 1 ≥ (ps ++ [GoType.slice elem]).length) :=
    ⟨rfl, by simp; omega⟩
  rw [if_pos hcond]
  have hlen : (ps ++ [GoType.slice elem]).length - 1 = ps.length := by simp
  rw [hlen, List.get?_concat_length]

theorem paramTypeFor_fixed {ps : List GoType} {elem : GoType} {argIdx : Nat}
    (h : argIdx < ps.length) :
    paramTypeFor (ps ++ [GoType.slice elem]) true argIdx = Outcome.ok (ps.get? argIdx) := by
  unfold paramTypeFor
  have hcond : ¬(true = true ∧ argIdx + 1 ≥ (ps ++ [GoType.slice elem]).length) := by
    simp
    omega
  rw [if_neg hcond]
  have hlt : argIdx < (ps ++ [GoType.slice elem]).length := by simp; omega
  rw [if_pos hlt, List.get?_append h]
  cases ht : ps.get? argIdx with
  | none =>
      have := List.get?_eq_none.mp ht
      omega
  | some t => rfl

theorem paramTypeFor_out_of_range {params : List GoType} {argIdx : Nat}
    (h : params.length ≤ argIdx) :
    paramTypeFor params false argIdx = Outcome.ok none := by
  unfold paramTypeFor
  rw [if_neg (by simp), if_neg (by omega)]

theorem paramTypeFor_set {params : List GoType} {k : Nat} {u : GoType} {variadic : Bool}
    (hk : params.get? k = some u) (hfix : k + 1 < params.length ∨ variadic = false)
    (argIdx : Nat) :
    paramTypeFor (params.set k (GoType.alias u)) variadic argIdx
        = paramTypeFor params variadic argIdx
    ∨ (paramTypeFor params variadic argIdx = Outcome.ok (some u)
        ∧ paramTypeFor (params.set k (GoType.alias u)) variadic argIdx
            = Outcome.ok (some (GoType.alias u))) := by
  have hklen : k < params.length := by
    by_contra hle
    push_neg at hle
    rw [List.get?_eq_none.mpr hle] at hk
    exact absurd hk (by simp)
  unfold paramTypeFor
  rw [List.length_set]
  by_cases hvar : variadic = true ∧ argIdx + 1 ≥ params.length
  · left
    rw [if_pos hvar, if_pos hvar]
    have hkne : k ≠ params.length - 1 := by
      rcases hfix with hlt | hfalse
      · omega
      · rw [hfalse] at hvar
        exact absurd hvar.1 (by simp)
    rw [List.get?_set_ne _ _ hkne]
  · rw [if_neg hvar, if_neg hvar]
    by_cases hrange : argIdx < params.length
    · rw [if_pos hrange, if_pos hrange]
      by_cases hik : argIdx = k
      · right
        subst hik
        rw [List.get?_set_eq_of_lt _ hklen, hk]
        exact ⟨rfl, rfl⟩
      · left
        rw [List.get?_set_ne _ _ (fun hh => hik hh.symm)]
    · left
      rw [if_neg hrange, if_neg hrange]

theorem concreteType_setType_other {info : Info} {tid : Nat} {u : GoType} {e : Expr}
    (h : e.id ≠ tid) : concreteType (info.setType tid u) e = concreteType info e := by
  unfold concreteType
  rw [setType_types, if_neg h]

theorem calleeSignature_setType_self {info : Info} {fn : Expr} {params : List GoType}
    {v : Bool} :
    calleeSignature (info.setType fn.id (GoType.signature params v)) fn = some (params, v) := by
  unfold calleeSignature
  rw [setType_types, if_pos rfl]
  rfl

theorem calleeSignature_of_types {info : Info} {fn : Expr} {params : List GoType} {v : Bool}
    (h : info.types fn.id = some (GoType.signature params v)) :
    calleeSignature info fn = some (params, v) := by
  unfold calleeSignature
  rw [h]
  rfl

/-! ## Claims -/

/-- C1: when the position lies inside a return operand, the operand's
type resolves to a named concrete type with a declaring package, and
the enclosing function's declared result type at the matching index is
a named interface (which, on well-typed input, has a declaring package
unless it is the built-in `error`), `fromReturnStmt` produces a result
whose `Interface` equals that declared result type's object and whose
`Concrete` equals the operand's named type. -/
theorem C1_return_analyzer (fset : Nat) (info : Info) (pos : Pos) (path : List Node)
    (ret : ReturnStmt) (i : Nat) (r : Expr) (ct : Named) (ptr : Bool) (p : String)
    (ft : FuncType) (fields : List Field) (fld : Field) (rt : GoType) (n : Named)
    (h1 : findContaining pos ret.results = some (i, r))
    (h2 : concreteType info r = (some ct, ptr))
    (h3 : ct.obj.pkg = some p)
    (h4 : enclosingFunction path info = some ft)
    (h5 : ft.results = some fields)
    (h6 : fields.length = ret.results.length)
    (h7 : fields.get? i = some fld)
    (h8 : info.types fld.type.id = some rt)
    (h9 : Unalias rt = GoType.named n)
    (h10 : n.isInterface = true)
    (h11 : n.obj.pkg ≠ none ∨ n.obj.name = "error") :
    fromReturnStmt fset info pos path ret
      = Outcome.ok (some { Fset := fset, Interface := n.obj, Concrete := ct, Pointer := ptr },
                    none) := by
  have hcond : ¬(n.obj.pkg = none ∧ n.obj.name ≠ "error") := by tauto
  simp only [fromReturnStmt, h1, h2, h3, h4, h5, h6, h7, ifaceType, h8,
    ifaceObjFromType, h9, h10, Bool.not_true, Bool.false_eq_true, if_false,
    if_neg hcond, ne_eq, not_true_eq_false, ite_false, Option.some.injEq,
    reduceCtorEq]

/-- C1 witness: a concrete run through the return analyzer. -/
theorem C1_return_analyzer_witness :
    fromReturnStmt 7
      { types := fun k => if k == 1 then some (GoType.named ⟨⟨some "p", "T"⟩, false⟩)
                  else if k == 2 then some (GoType.named ⟨⟨some "io", "Writer"⟩, true⟩)
                  else none,
        defs := fun k => k == 9 }
      15
      [Node.returnStmt ⟨5, 25, [Expr.basic 1 10 20]⟩,
       Node.funcDecl 9 ⟨some [⟨Expr.basic 2 0 0⟩]⟩]
      ⟨5, 25, [Expr.basic 1 10 20]⟩
      = Outcome.ok (some { Fset := 7, Interface := ⟨some "io", "Writer"⟩,
                           Concrete := ⟨⟨some "p", "T"⟩, false⟩, Pointer := false },
                    none) :=
  C1_return_analyzer 7 _ 15 _ _ 0 (Expr.basic 1 10 20) ⟨⟨some "p", "T"⟩, false⟩ false "p"
    ⟨some [⟨Expr.basic 2 0 0⟩]⟩ [⟨Expr.basic 2 0 0⟩] ⟨Expr.basic 2 0 0⟩
    (GoType.named ⟨⟨some "io", "Writer"⟩, true⟩) ⟨⟨some "io", "Writer"⟩, true⟩
    rfl rfl rfl rfl rfl rfl rfl rfl rfl rfl (Or.inl (by simp))

/-- C3: `ifaceObjFromType` accepts a package-less named interface iff
its name is exactly "error" (and rejects every other package-less
interface), and consequently every `Interface` of a produced `StubInfo`
has a declaring package or is the built-in `error`. -/
theorem C3_builtin_error_interface :
    (∀ n : Named, n.isInterface = true → n.obj.pkg = none →
        ((ifaceObjFromType (GoType.named n) = some n.obj ↔ n.obj.name = "error")
          ∧ (n.obj.name ≠ "error" → ifaceObjFromType (GoType.named n) = none)))
    ∧ (∀ (fset : Nat) (info : Info) (path : List Node) (pos : Pos) (si : StubInfo),
        GetStubInfo fset info path pos = Outcome.ok (some si) →
        si.Interface.pkg ≠ none ∨ si.Interface.name = "error") := by
  constructor
  · intro n hiface hpkg
    constructor
    · constructor
      · intro h
        rcases ifaceObjFromType_some_pkg h with hp | he
        · exact absurd hpkg hp
        · exact he
      · intro he
        simp [ifaceObjFromType, Unalias, hiface, hpkg, he]
    · intro he
      simp [ifaceObjFromType, Unalias, hiface, hpkg, he]
  · intro fset info path pos si h
    exact GetStubInfoAux_interface path h

/-- C3 witness: the built-in `error` interface is accepted, a
package-less `Foo` interface is rejected, and a produced result's
interface has a package. -/
theorem C3_builtin_error_interface_witness :
    ifaceObjFromType (GoType.named ⟨⟨none, "error"⟩, true⟩) = some ⟨none, "error"⟩
    ∧ ifaceObjFromType (GoType.named ⟨⟨none, "Foo"⟩, true⟩) = none
    ∧ (({ pkg := some "io", name := "Writer" } : TypeName).pkg ≠ none
        ∨ ({ pkg := some "io", name := "Writer" } : TypeName).name = "error") :=
  ⟨(C3_builtin_error_interface.1 ⟨⟨none, "error"⟩, true⟩ rfl rfl).1.mpr rfl,
   (C3_builtin_error_interface.1 ⟨⟨none, "Foo"⟩, true⟩ rfl rfl).2 (by decide),
   C3_builtin_error_interface.2 7
     { types := fun k => if k == 1 then some (GoType.named ⟨⟨some "p", "T"⟩, false⟩)
                 else if k == 2 then some (GoType.named ⟨⟨some "io", "Writer"⟩, true⟩)
                 else none,
       defs := fun _ => false }
     [Node.assignStmt ⟨[Expr.basic 2 0 5], [Expr.basic 1 10 20]⟩]
     15
     { Fset := 7, Interface := ⟨some "io", "Writer"⟩,
       Concrete := ⟨⟨some "p", "T"⟩, false⟩, Pointer := false }
     (by decide)⟩

/-- C5: concrete-type resolution unwraps exactly one pointer level: a
pointer to a (alias-unwrapped) named type yields that type with the
by-pointer flag set, a named type yields itself without the flag, a
pointer to a pointer fails, and the resolution of an expression is the
resolution of its recorded type. -/
theorem C5_pointer_one_level :
    (∀ (t0 t1 : GoType) (n : Named), Unalias t0 = GoType.pointer t1 →
        Unalias t1 = GoType.named n → concreteTypeOf t0 = (some n, true))
    ∧ (∀ (t0 : GoType) (n : Named), Unalias t0 = GoType.named n →
        concreteTypeOf t0 = (some n, false))
    ∧ (∀ (t0 t1 t2 : GoType), Unalias t0 = GoType.pointer t1 →
        Unalias t1 = GoType.pointer t2 → concreteTypeOf t0 = (none, false))
    ∧ (∀ (info : Info) (e : Expr) (t0 : GoType), info.types e.id = some t0 →
        concreteType info e = concreteTypeOf t0) := by
  refine ⟨?_, ?_, ?_, ?_⟩
  · intro t0 t1 n h1 h2
    simp only [concreteTypeOf, h1, h2]
  · intro t0 n h1
    simp only [concreteTypeOf, h1]
  · intro t0 t1 t2 h1 h2
    simp only [concreteTypeOf, h1, h2]
  · intro info e t0 h
    simp only [concreteType, h]

/-- C5 witness: concrete evaluations of the three pointer shapes and an
expression-level resolution. -/
theorem C5_pointer_one_level_witness :
    concreteTypeOf (GoType.pointer (GoType.alias (GoType.named ⟨⟨some "p", "T"⟩, false⟩)))
        = (some ⟨⟨some "p", "T"⟩, false⟩, true)
    ∧ concreteTypeOf (GoType.named ⟨⟨some "p", "T"⟩, false⟩)
        = (some ⟨⟨some "p", "T"⟩, false⟩, false)
    ∧ concreteTypeOf (GoType.pointer (GoType.pointer (GoType.named ⟨⟨some "p", "T"⟩, false⟩)))
        = (none, false)
    ∧ concreteType
        { types := fun k => if k == 1
              then some (GoType.pointer (GoType.named ⟨⟨some "p", "T"⟩, false⟩)) else none,
          defs := fun _ => false }
        (Expr.basic 1 0 0)
        = (some ⟨⟨some "p", "T"⟩, false⟩, true) :=
  ⟨C5_pointer_one_level.1
      (GoType.pointer (GoType.alias (GoType.named ⟨⟨some "p", "T"⟩, false⟩)))
      (GoType.alias (GoType.named ⟨⟨some "p", "T"⟩, false⟩))
      ⟨⟨some "p", "T"⟩, false⟩ rfl rfl,
   C5_pointer_one_level.2.1 (GoType.named ⟨⟨some "p", "T"⟩, false⟩)
      ⟨⟨some "p", "T"⟩, false⟩ rfl,
   C5_pointer_one_level.2.2.1
      (GoType.pointer (GoType.pointer (GoType.named ⟨⟨some "p", "T"⟩, false⟩)))
      (GoType.pointer (GoType.named ⟨⟨some "p", "T"⟩, false⟩))
      (GoType.named ⟨⟨some "p", "T"⟩, false⟩) rfl rfl,
   (C5_pointer_one_level.2.2.2 _ (Expr.basic 1 0 0)
      (GoType.pointer (GoType.named ⟨⟨some "p", "T"⟩, false⟩)) rfl).trans
    (C5_pointer_one_level.1
      (GoType.pointer (GoType.named ⟨⟨some "p", "T"⟩, false⟩))
      (GoType.named ⟨⟨some "p", "T"⟩, false⟩)
      ⟨⟨some "p", "T"⟩, false⟩ rfl rfl)⟩

/-- C7: the declaration analyzer treats the conversion form
`var _ = I(v)` exactly as the typed form `var _ I = v`: for positions
inside the respective initializer spans, both runs produce the same
result. -/
theorem C7_conversion_decl (fset : Nat) (info : Info) (cid : Nat) (csp cep : Pos)
    (cfn v : Expr) (pos1 pos2 : Pos)
    (h1 : csp ≤ pos1 ∧ pos1 ≤ cep) (h2 : v.spos ≤ pos2 ∧ pos2 ≤ v.epos) :
    fromValueSpec fset info { type? := none, values := [Expr.call cid csp cep cfn [v]] } pos1
      = fromValueSpec fset info { type? := some cfn, values := [v] } pos2 := by
  have hf1 : findContaining pos1 [Expr.call cid csp cep cfn [v]]
      = some (0, Expr.call cid csp cep cfn [v]) := by
    simp [findContaining, findContainingFrom, Expr.spos, Expr.epos, h1.1, h1.2]
  have hf2 : findContaining pos2 [v] = some (0, v) := by
    simp [findContaining, findContainingFrom, h2.1, h2.2]
  unfold fromValueSpec
  rw [hf1, hf2]
  rfl

/-- C7 witness: the two declaration forms at a concrete input. -/
theorem C7_conversion_decl_witness :
    fromValueSpec 7
      { types := fun k => if k == 1 then some (GoType.named ⟨⟨some "p", "T"⟩, false⟩)
                  else if k == 2 then some (GoType.named ⟨⟨some "io", "Writer"⟩, true⟩)
                  else none,
        defs := fun _ => false }
      { type? := none, values := [Expr.call 3 28 41 (Expr.basic 2 28 29) [Expr.basic 1 30 40]] }
      35
      = fromValueSpec 7
          { types := fun k => if k == 1 then some (GoType.named ⟨⟨some "p", "T"⟩, false⟩)
                      else if k == 2 then some (GoType.named ⟨⟨some "io", "Writer"⟩, true⟩)
                      else none,
            defs := fun _ => false }
          { type? := some (Expr.basic 2 28 29), values := [Expr.basic 1 30 40] }
          35 :=
  C7_conversion_decl 7 _ 3 28 41 (Expr.basic 2 28 29) (Expr.basic 1 30 40) 35 35
    ⟨by decide, by decide⟩ ⟨by decide, by decide⟩

/-- C9: contrary to the never-crash specification, `GetStubInfo` can
panic: on an ill-typed input whose return statement has an operand with
a resolvable named type while the enclosing function declares no
results, `fromReturnStmt` dereferences the nil declared-result list. -/
theorem C9_nil_results_panic :
    GetStubInfo 0
      { types := fun k => if k == 1 then some (GoType.named ⟨⟨some "p", "T"⟩, false⟩)
                  else none,
        defs := fun k => k == 9 }
      [Node.returnStmt ⟨5, 25, [Expr.basic 1 10 20]⟩, Node.funcDecl 9 ⟨none⟩]
      15
      = Outcome.panic := by decide

/-- C10: in the operand scan shared by all four analyzers, the match is
exactly the first (lowest-index) expression whose span contains the
position under the inclusive test, any later containing expression
being ignored. -/
theorem C10_first_containing (pos : Pos) (es : List Expr) (i : Nat) (e : Expr) :
    findContaining pos es = some (i, e) ↔
      (es.get? i = some e ∧ e.spos ≤ pos ∧ pos ≤ e.epos ∧
        ∀ j e2, j < i → es.get? j = some e2 → ¬(e2.spos ≤ pos ∧ pos ≤ e2.epos)) :=
  findContaining_iff pos es i e

/-- C10 witness: with two overlapping spans both containing the
position, the scan returns the first. -/
theorem C10_first_containing_witness :
    findContaining 5 [Expr.basic 0 0 10, Expr.basic 1 4 6] = some (0, Expr.basic 0 0 10) :=
  (C10_first_containing 5 [Expr.basic 0 0 10, Expr.basic 1 4 6] 0 (Expr.basic 0 0 10)).mpr
    ⟨rfl, by decide, by decide, fun j e2 hj _ => absurd hj (Nat.not_lt_zero j)⟩

/-- C2: the dispatcher returns a declaration, return-statement or
assignment analyzer's result immediately regardless of success or
failure, walks outward past a call expression whose analysis fails,
and consequently returns the assignment's result on every path where
the nodes before a resolving assignment are failing calls or
non-matching nodes. -/
theorem C2_dispatcher_precedence :
    (∀ (fset : Nat) (info : Info) (path : List Node) (pos : Pos) (spec : ValueSpec)
        (rest : List Node),
        GetStubInfoAux fset info path pos (Node.valueSpec spec :: rest)
          = Outcome.ok (fromValueSpec fset info spec pos))
    ∧ (∀ (fset : Nat) (info : Info) (path : List Node) (pos : Pos) (ret : ReturnStmt)
        (rest : List Node) (si : Option StubInfo) (err : Option RErr),
        fromReturnStmt fset info pos path ret = Outcome.ok (si, err) →
        GetStubInfoAux fset info path pos (Node.returnStmt ret :: rest) = Outcome.ok si)
    ∧ (∀ (fset : Nat) (info : Info) (path : List Node) (pos : Pos) (assign : AssignStmt)
        (rest : List Node),
        GetStubInfoAux fset info path pos (Node.assignStmt assign :: rest)
          = Outcome.ok (fromAssignStmt fset info assign pos))
    ∧ (∀ (fset : Nat) (info : Info) (path : List Node) (pos : Pos) (fn : Expr)
        (args : List Expr) (rest : List Node),
        fromCallExpr fset info pos fn args = Outcome.ok none →
        GetStubInfoAux fset info path pos (Node.callExpr fn args :: rest)
          = GetStubInfoAux fset info path pos rest)
    ∧ (∀ (fset : Nat) (info : Info) (pos : Pos) (pre rest : List Node) (assign : AssignStmt),
        (∀ node ∈ pre, skipsNode fset info pos node) →
        GetStubInfo fset info (pre ++ Node.assignStmt assign :: rest) pos
          = Outcome.ok (fromAssignStmt fset info assign pos)) := by
  refine ⟨fun _ _ _ _ _ _ => rfl, ?_, fun _ _ _ _ _ _ => rfl, ?_, ?_⟩
  · intro fset info path pos ret rest si err h
    simp only [GetStubInfoAux, h]
  · intro fset info path pos fn args rest h
    simp only [GetStubInfoAux, h]
  · intro fset info pos pre rest assign hskip
    exact GetStubInfoAux_skips pre _ rest assign hskip

/-- C2 witness: a failing call expression nested inside a resolving
assignment: the dispatcher returns the assignment's result. -/
theorem C2_dispatcher_precedence_witness :
    GetStubInfo 7
      { types := fun k => if k == 1 then some (GoType.named ⟨⟨some "p", "T"⟩, false⟩)
                  else if k == 2 then some (GoType.named ⟨⟨some "io", "Writer"⟩, true⟩)
                  else none,
        defs := fun _ => false }
      [Node.callExpr (Expr.basic 4 0 1) [Expr.basic 1 10 20], Node.other,
       Node.assignStmt ⟨[Expr.basic 2 0 5], [Expr.basic 1 10 20]⟩]
      15
      = Outcome.ok (fromAssignStmt 7
          { types := fun k => if k == 1 then some (GoType.named ⟨⟨some "p", "T"⟩, false⟩)
                      else if k == 2 then some (GoType.named ⟨⟨some "io", "Writer"⟩, true⟩)
                      else none,
            defs := fun _ => false }
          ⟨[Expr.basic 2 0 5], [Expr.basic 1 10 20]⟩ 15) :=
  C2_dispatcher_precedence.2.2.2.2 7 _ 15
    [Node.callExpr (Expr.basic 4 0 1) [Expr.basic 1 10 20], Node.other] [] _
    (by
      intro node hm
      simp only [List.mem_cons, List.not_mem_nil, or_false] at hm
      rcases hm with rfl | rfl
      · exact rfl
      · trivial)

/-- C6: for a variadic signature, an argument at or past the last fixed
parameter is matched against the element type of the variadic slice
parameter, an argument at a smaller index against the fixed parameter
type at that index; for a non-variadic signature an out-of-range
argument index makes the call analyzer fail. -/
theorem C6_variadic_matching :
    (∀ (ps : List GoType) (elem : GoType) (argIdx : Nat), ps.length ≤ argIdx →
        paramTypeFor (ps ++ [GoType.slice elem]) true argIdx = Outcome.ok (some elem))
    ∧ (∀ (ps : List GoType) (elem : GoType) (argIdx : Nat), argIdx < ps.length →
        paramTypeFor (ps ++ [GoType.slice elem]) true argIdx = Outcome.ok (ps.get? argIdx))
    ∧ (∀ (fset : Nat) (info : Info) (pos : Pos) (fn : Expr) (args : List Expr)
        (argIdx : Nat) (arg : Expr) (params : List GoType),
        findContaining pos args = some (argIdx, arg) →
        calleeSignature info fn = some (params, false) →
        params.length ≤ argIdx →
        fromCallExpr fset info pos fn args = Outcome.ok none) := by
  refine ⟨fun _ _ _ h => paramTypeFor_variadic h, fun _ _ _ h => paramTypeFor_fixed h, ?_⟩
  intro fset info pos fn args argIdx arg params hfind hsig hlen
  unfold fromCallExpr
  rcases hconc : concreteType info arg with ⟨oct, ptr⟩
  simp only [hfind, hconc]
  cases oct with
  | none => rfl
  | some ct =>
      by_cases hpkg : ct.obj.pkg = none
      · simp [hpkg]
      · simp only [if_neg hpkg, hsig, paramTypeFor_out_of_range hlen]

/-- C6 witness: a two-parameter variadic signature matched at the
variadic index and at the fixed index, and a non-variadic signature
with an out-of-range argument. -/
theorem C6_variadic_matching_witness :
    paramTypeFor [GoType.basic "int", GoType.slice (GoType.named ⟨⟨some "io", "Writer"⟩, true⟩)]
        true 2
      = Outcome.ok (some (GoType.named ⟨⟨some "io", "Writer"⟩, true⟩))
    ∧ paramTypeFor [GoType.basic "int", GoType.slice (GoType.named ⟨⟨some "io", "Writer"⟩, true⟩)]
        true 0
      = Outcome.ok ([GoType.basic "int"].get? 0)
    ∧ fromCallExpr 7
        { types := fun k => if k == 1 then some (GoType.named ⟨⟨some "p", "T"⟩, false⟩)
                    else if k == 4 then some (GoType.signature [] false)
                    else none,
          defs := fun _ => false }
        15 (Expr.basic 4 0 1) [Expr.basic 1 10 20]
      = Outcome.ok none :=
  ⟨C6_variadic_matching.1 [GoType.basic "int"] (GoType.named ⟨⟨some "io", "Writer"⟩, true⟩) 2
      (by decide),
   C6_variadic_matching.2.1 [GoType.basic "int"] (GoType.named ⟨⟨some "io", "Writer"⟩, true⟩) 0
      (by decide),
   C6_variadic_matching.2.2 7 _ 15 (Expr.basic 4 0 1) [Expr.basic 1 10 20] 0
      (Expr.basic 1 10 20) [] rfl rfl (by decide)⟩

/-- C4: type aliases are transparent: wrapping any single recorded type
in an alias (covering the declared interface position, a function
result type, the callee type, and the concrete operand's recorded
type) leaves the whole dispatcher's result unchanged; wrapping a fixed
call parameter type in an alias, or the variadic element type in an
alias, leaves the call analyzer's result unchanged. -/
theorem C4_alias_transparency :
    (∀ (fset : Nat) (info : Info) (tid : Nat) (t : GoType) (path : List Node) (pos : Pos),
        info.types tid = some t →
        GetStubInfo fset (info.setType tid (GoType.alias t)) path pos
          = GetStubInfo fset info path pos)
    ∧ (∀ (fset : Nat) (info : Info) (pos : Pos) (fn : Expr) (args : List Expr)
        (params : List GoType) (variadic : Bool) (k : Nat) (u : GoType),
        info.types fn.id = some (GoType.signature params variadic) →
        params.get? k = some u →
        (k + 1 < params.length ∨ variadic = false) →
        fromCallExpr fset
            (info.setType fn.id (GoType.signature (params.set k (GoType.alias u)) variadic))
            pos fn args
          = fromCallExpr fset info pos fn args)
    ∧ (∀ (fset : Nat) (info : Info) (pos : Pos) (fn : Expr) (args : List Expr)
        (ps : List GoType) (elem : GoType),
        info.types fn.id = some (GoType.signature (ps ++ [GoType.slice elem]) true) →
        fromCallExpr fset
            (info.setType fn.id
              (GoType.signature (ps ++ [GoType.slice (GoType.alias elem)]) true))
            pos fn args
          = fromCallExpr fset info pos fn args) := by
  refine ⟨?_, ?_, ?_⟩
  · intro fset info tid t path pos h
    exact GetStubInfoAux_set_alias h fset path pos path
  · intro fset info pos fn args params variadic k u h hk hfix
    rcases hfind : findContaining pos args with _ | ⟨argIdx, arg⟩
    · unfold fromCallExpr
      simp only [hfind]
    · by_cases hid : arg.id = fn.id
      · have e1 : concreteType
            (info.setType fn.id (GoType.signature (params.set k (GoType.alias u)) variadic))
            arg = (none, false) := by
          unfold concreteType
          rw [setType_types, if_pos hid]
          rfl
        have e2 : concreteType info arg = (none, false) := by
          unfold concreteType
          rw [hid, h]
          rfl
        unfold fromCallExpr
        simp only [hfind, e1, e2]
      · have e3 : concreteType
            (info.setType fn.id (GoType.signature (params.set k (GoType.alias u)) variadic))
            arg = concreteType info arg := concreteType_setType_other hid
        unfold fromCallExpr
        simp only [hfind, e3]
        rcases hconc : concreteType info arg with ⟨oct, ptr⟩
        cases oct with
        | none => rfl
        | some ct =>
            by_cases hpkg : ct.obj.pkg = none
            · simp [hpkg]
            · simp only [if_neg hpkg, calleeSignature_setType_self,
                calleeSignature_of_types h]
              rcases paramTypeFor_set hk hfix argIdx with heq | ⟨ho, hm⟩
              · rw [heq]
              · simp only [ho, hm, ifaceObjFromType_alias]
  · intro fset info pos fn args ps elem h
    rcases hfind : findContaining pos args with _ | ⟨argIdx, arg⟩
    · unfold fromCallExpr
      simp only [hfind]
    · by_cases hid : arg.id = fn.id
      · have e1 : concreteType
            (info.setType fn.id
              (GoType.signature (ps ++ [GoType.slice (GoType.alias elem)]) true))
            arg = (none, false) := by
          unfold concreteType
          rw [setType_types, if_pos hid]
          rfl
        have e2 : concreteType info arg = (none, false) := by
          unfold concreteType
          rw [hid, h]
          rfl
        unfold fromCallExpr
        simp only [hfind, e1, e2]
      · have e3 : concreteType
            (info.setType fn.id
              (GoType.signature (ps ++ [GoType.slice (GoType.alias elem)]) true))
            arg = concreteType info arg := concreteType_setType_other hid
        unfold fromCallExpr
        simp only [hfind, e3]
        rcases hconc : concreteType info arg with ⟨oct, ptr⟩
        cases oct with
        | none => rfl
        | some ct =>
            by_cases hpkg : ct.obj.pkg = none
            · simp [hpkg]
            · simp only [if_neg hpkg, calleeSignature_setType_self,
                calleeSignature_of_types h]
              by_cases hvar : ps.length ≤ argIdx
              · simp only [paramTypeFor_variadic hvar, ifaceObjFromType_alias]
              · push_neg at hvar
                simp only [paramTypeFor_fixed hvar]

/-- C4 witness: concrete alias substitutions at the declared-type
position, at a fixed parameter and at the variadic element type. -/
theorem C4_alias_transparency_witness :
    GetStubInfo 7
        (Info.setType
          { types := fun k => if k == 1 then some (GoType.named ⟨⟨some "p", "T"⟩, false⟩)
                      else if k == 2 then some (GoType.named ⟨⟨some "io", "Writer"⟩, true⟩)
                      else none,
            defs := fun _ => false }
          2 (GoType.alias (GoType.named ⟨⟨some "io", "Writer"⟩, true⟩)))
        [Node.assignStmt ⟨[Expr.basic 2 0 5], [Expr.basic 1 10 20]⟩] 15
      = GetStubInfo 7
          { types := fun k => if k == 1 then some (GoType.named ⟨⟨some "p", "T"⟩, false⟩)
                      else if k == 2 then some (GoType.named ⟨⟨some "io", "Writer"⟩, true⟩)
                      else none,
            defs := fun _ => false }
          [Node.assignStmt ⟨[Expr.basic 2 0 5], [Expr.basic 1 10 20]⟩] 15
    ∧ fromCallExpr 7
        (Info.setType
          { types := fun k => if k == 1 then some (GoType.named ⟨⟨some "p", "T"⟩, false⟩)
                      else if k == 4 then some (GoType.signature
                          [GoType.named ⟨⟨some "io", "Writer"⟩, true⟩] false)
                      else none,
            defs := fun _ => false }
          4 (GoType.signature
              ([GoType.named ⟨⟨some "io", "Writer"⟩, true⟩].set 0
                (GoType.alias (GoType.named ⟨⟨some "io", "Writer"⟩, true⟩))) false))
        15 (Expr.basic 4 0 1) [Expr.basic 1 10 20]
      = fromCallExpr 7
          { types := fun k => if k == 1 then some (GoType.named ⟨⟨some "p", "T"⟩, false⟩)
                      else if k == 4 then some (GoType.signature
                          [GoType.named ⟨⟨some "io", "Writer"⟩, true⟩] false)
                      else none,
            defs := fun _ => false }
          15 (Expr.basic 4 0 1) [Expr.basic 1 10 20]
    ∧ fromCallExpr 7
        (Info.setType
          { types := fun k => if k == 1 then some (GoType.named ⟨⟨some "p", "T"⟩, false⟩)
                      else if k == 4 then some (GoType.signature
                          [GoType.slice (GoType.named ⟨⟨some "io", "Writer"⟩, true⟩)] true)
                      else none,
            defs := fun _ => false }
          4 (GoType.signature
              ([] ++ [GoType.slice (GoType.alias (GoType.named ⟨⟨some "io", "Writer"⟩, true⟩))])
              true))
        15 (Expr.basic 4 0 1) [Expr.basic 1 10 20]
      = fromCallExpr 7
          { types := fun k => if k == 1 then some (GoType.named ⟨⟨some "p", "T"⟩, false⟩)
                      else if k == 4 then some (GoType.signature
                          [GoType.slice (GoType.named ⟨⟨some "io", "Writer"⟩, true⟩)] true)
                      else none,
            defs := fun _ => false }
          15 (Expr.basic 4 0 1) [Expr.basic 1 10 20] :=
  ⟨C4_alias_transparency.1 7 _ 2 (GoType.named ⟨⟨some "io", "Writer"⟩, true⟩) _ 15 rfl,
   C4_alias_transparency.2.1 7 _ 15 (Expr.basic 4 0 1) [Expr.basic 1 10 20]
     [GoType.named ⟨⟨some "io", "Writer"⟩, true⟩] false 0
     (GoType.named ⟨⟨some "io", "Writer"⟩, true⟩) rfl rfl (Or.inr rfl),
   C4_alias_transparency.2.2 7 _ 15 (Expr.basic 4 0 1) [Expr.basic 1 10 20]
     [] (GoType.named ⟨⟨some "io", "Writer"⟩, true⟩) rfl⟩

/-- C8: `fromReturnStmt` returns an explicit error exactly when the
position is inside no return operand, or the operand's concrete type
resolves (with a declaring package) but no enclosing function is
found, or the enclosing function's declared result list differs in
length from the operand list; a failed concrete-type or interface
resolution yields no result and no error. -/
theorem C8_return_error_cases (fset : Nat) (info : Info) (pos : Pos) (path : List Node)
    (ret : ReturnStmt) :
    ((∃ si e, fromReturnStmt fset info pos path ret = Outcome.ok (si, some e)) ↔
      (findContaining pos ret.results = none
       ∨ (∃ i r ct ptr, findContaining pos ret.results = some (i, r)
            ∧ concreteType info r = (some ct, ptr) ∧ ct.obj.pkg ≠ none
            ∧ enclosingFunction path info = none)
       ∨ (∃ i r ct ptr ft fields, findContaining pos ret.results = some (i, r)
            ∧ concreteType info r = (some ct, ptr) ∧ ct.obj.pkg ≠ none
            ∧ enclosingFunction path info = some ft ∧ ft.results = some fields
            ∧ fields.length ≠ ret.results.length)))
    ∧ (∀ i r, findContaining pos ret.results = some (i, r) →
        ((concreteType info r).1 = none
          ∨ (∃ ct ptr, concreteType info r = (some ct, ptr) ∧ ct.obj.pkg = none)) →
        fromReturnStmt fset info pos path ret = Outcome.ok (none, none))
    ∧ (∀ i r ct ptr ft fields fld,
        findContaining pos ret.results = some (i, r) →
        concreteType info r = (some ct, ptr) → ct.obj.pkg ≠ none →
        enclosingFunction path info = some ft → ft.results = some fields →
        fields.length = ret.results.length → fields.get? i = some fld →
        ifaceType info fld.type = none →
        fromReturnStmt fset info pos path ret = Outcome.ok (none, none)) := by
  refine ⟨?_, ?_, ?_⟩
  · rcases hfind : findContaining pos ret.results with _ | ⟨i, r⟩
    · constructor
      · intro _
        exact Or.inl rfl
      · intro _
        exact ⟨none, RErr.posNotInReturn pos ret.spos ret.epos,
               by simp [fromReturnStmt, hfind]⟩
    · rcases hconc : concreteType info r with ⟨oct, ptr⟩
      cases oct with
      | none =>
          have hFR : fromReturnStmt fset info pos path ret = Outcome.ok (none, none) := by
            simp [fromReturnStmt, hfind, hconc]
          constructor
          · rintro ⟨si, e, heq⟩
            rw [hFR] at heq
            simp at heq
          · rintro (h1 | ⟨i2, r2, ct2, ptr2, hf2, hc2, hpk2, henc2⟩
                     | ⟨i2, r2, ct2, ptr2, ft2, fields2, hf2, hc2, hpk2, henc2, hres2, hlen2⟩)
            · exact absurd h1 (by simp)
            · simp only [Option.some.injEq, Prod.mk.injEq] at hf2
              obtain ⟨rfl, rfl⟩ := hf2
              rw [hconc] at hc2
              simp at hc2
            · simp only [Option.some.injEq, Prod.mk.injEq] at hf2
              obtain ⟨rfl, rfl⟩ := hf2
              rw [hconc] at hc2
              simp at hc2
      | some ct =>
          by_cases hpkg : ct.obj.pkg = none
          · have hFR : fromReturnStmt fset info pos path ret = Outcome.ok (none, none) := by
              simp [fromReturnStmt, hfind, hconc, hpkg]
            constructor
            · rintro ⟨si, e, heq⟩
              rw [hFR] at heq
              simp at heq
            · rintro (h1 | ⟨i2, r2, ct2, ptr2, hf2, hc2, hpk2, henc2⟩
                       | ⟨i2, r2, ct2, ptr2, ft2, fields2, hf2, hc2, hpk2, henc2, hres2, hlen2⟩)
              · exact absurd h1 (by simp)
              · simp only [Option.some.injEq, Prod.mk.injEq] at hf2
                obtain ⟨rfl, rfl⟩ := hf2
                rw [hconc] at hc2
                simp only [Prod.mk.injEq, Option.some.injEq] at hc2
                obtain ⟨rfl, rfl⟩ := hc2
                exact absurd hpkg hpk2
              · simp only [Option.some.injEq, Prod.mk.injEq] at hf2
                obtain ⟨rfl, rfl⟩ := hf2
                rw [hconc] at hc2
                simp only [Prod.mk.injEq, Option.some.injEq] at hc2
                obtain ⟨rfl, rfl⟩ := hc2
                exact absurd hpkg hpk2
          · rcases henc : enclosingFunction path info with _ | ft
            · have hFR : fromReturnStmt fset info pos path ret
                  = Outcome.ok (none, some RErr.noEnclosingFunc) := by
                simp [fromReturnStmt, hfind, hconc, hpkg, henc]
              constructor
              · intro _
                exact Or.inr (Or.inl ⟨i, r, ct, ptr, rfl, hconc, hpkg, rfl⟩)
              · intro _
                exact ⟨none, RErr.noEnclosingFunc, hFR⟩
            · rcases hres : ft.results with _ | fields
              · have hFR : fromReturnStmt fset info pos path ret = Outcome.panic := by
                  simp [fromReturnStmt, hfind, hconc, hpkg, henc, hres]
                constructor
                · rintro ⟨si, e, heq⟩
                  rw [hFR] at heq
                  simp at heq
                · rintro (h1 | ⟨i2, r2, ct2, ptr2, hf2, hc2, hpk2, henc2⟩
                           | ⟨i2, r2, ct2, ptr2, ft2, fields2, hf2, hc2, hpk2, henc2, hres2,
                              hlen2⟩)
                  · exact absurd h1 (by simp)
                  · exact absurd henc2 (by simp)
                  · simp only [Option.some.injEq] at henc2
                    subst henc2
                    rw [hres] at hres2
                    exact absurd hres2 (by simp)
              · by_cases hlen : fields.length ≠ ret.results.length
                · have hFR : fromReturnStmt fset info pos path ret
                      = Outcome.ok (none,
                          some (RErr.arityMismatch ret.results.length fields.length)) := by
                    simp [fromReturnStmt, hfind, hconc, hpkg, henc, hres, hlen]
                  constructor
                  · intro _
                    exact Or.inr (Or.inr
                      ⟨i, r, ct, ptr, ft, fields, rfl, hconc, hpkg, rfl, hres, hlen⟩)
                  · intro _
                    exact ⟨none, RErr.arityMismatch ret.results.length fields.length, hFR⟩
                · push_neg at hlen
                  have hi : i < ret.results.length := (findContaining_lt hfind).1
                  obtain ⟨fld, hg⟩ : ∃ fld, fields.get? i = some fld := by
                    cases hg2 : fields.get? i with
                    | none =>
                        have := List.get?_eq_none.mp hg2
                        omega
                    | some fld => exact ⟨fld, rfl⟩
                  have hg2 : fields[i]? = some fld := by
                    rw [← List.get?_eq_getElem?]
                    exact hg
                  rcases hif : ifaceType info fld.type with _ | ifc
                  · have hFR : fromReturnStmt fset info pos path ret
                        = Outcome.ok (none, none) := by
                      simp [fromReturnStmt, hfind, hconc, hpkg, henc, hres, hlen, hg, hg2,
                        hif]
                    constructor
                    · rintro ⟨si, e, heq⟩
                      rw [hFR] at heq
                      simp at heq
                    · rintro (h1 | ⟨i2, r2, ct2, ptr2, hf2, hc2, hpk2, henc2⟩
                               | ⟨i2, r2, ct2, ptr2, ft2, fields2, hf2, hc2, hpk2, henc2,
                                  hres2, hlen2⟩)
                      · exact absurd h1 (by simp)
                      · exact absurd henc2 (by simp)
                      · simp only [Option.some.injEq] at henc2
                        subst henc2
                        rw [hres] at hres2
                        simp only [Option.some.injEq] at hres2
                        subst hres2
                        exact absurd hlen hlen2
                  · have hFR : fromReturnStmt fset info pos path ret
                        = Outcome.ok (some (StubInfo.mk fset ifc ct ptr), none) := by
                      simp [fromReturnStmt, hfind, hconc, hpkg, henc, hres, hlen, hg, hg2,
                        hif]
                    constructor
                    · rintro ⟨si, e, heq⟩
                      rw [hFR] at heq
                      simp at heq
                    · rintro (h1 | ⟨i2, r2, ct2, ptr2, hf2, hc2, hpk2, henc2⟩
                               | ⟨i2, r2, ct2, ptr2, ft2, fields2, hf2, hc2, hpk2, henc2,
                                  hres2, hlen2⟩)
                      · exact absurd h1 (by simp)
                      · exact absurd henc2 (by simp)
                      · simp only [Option.some.injEq] at henc2
                        subst henc2
                        rw [hres] at hres2
                        simp only [Option.some.injEq] at hres2
                        subst hres2
                        exact absurd hlen hlen2
  · intro i r hfind hfail
    rcases hfail with hnone | ⟨ct, ptr, hc, hpkg⟩
    · rcases hconc : concreteType info r with ⟨oct, ptr2⟩
      rw [hconc] at hnone
      simp at hnone
      subst hnone
      simp [fromReturnStmt, hfind, hconc]
    · simp [fromReturnStmt, hfind, hc, hpkg]
  · intro i r ct ptr ft fields fld hfind hc hpkg henc hres hlen hget hif
    have hget2 : fields[i]? = some fld := by
      rw [← List.get?_eq_getElem?]
      exact hget
    simp [fromReturnStmt, hfind, hc, hpkg, henc, hres, hlen, hget2, hif]

/-- C8 witness: a silent failure of concrete-type resolution and a
silent failure of interface resolution, both yielding no result and no
error. -/
theorem C8_return_error_cases_witness :
    fromReturnStmt 7
      { types := fun _ => none, defs := fun _ => false }
      15 [] ⟨5, 25, [Expr.basic 1 10 20]⟩
      = Outcome.ok (none, none)
    ∧ fromReturnStmt 7
        { types := fun k => if k == 1 then some (GoType.named ⟨⟨some "p", "T"⟩, false⟩)
                    else none,
          defs := fun k => k == 9 }
        15
        [Node.returnStmt ⟨5, 25, [Expr.basic 1 10 20]⟩,
         Node.funcDecl 9 ⟨some [⟨Expr.basic 2 0 0⟩]⟩]
        ⟨5, 25, [Expr.basic 1 10 20]⟩
      = Outcome.ok (none, none) :=
  ⟨(C8_return_error_cases 7 { types := fun _ => none, defs := fun _ => false }
      15 [] ⟨5, 25, [Expr.basic 1 10 20]⟩).2.1
      0 (Expr.basic 1 10 20) rfl (Or.inl rfl),
   (C8_return_error_cases 7
      { types := fun k => if k == 1 then some (GoType.named ⟨⟨some "p", "T"⟩, false⟩)
                  else none,
        defs := fun k => k == 9 }
      15
      [Node.returnStmt ⟨5, 25, [Expr.basic 1 10 20]⟩,
       Node.funcDecl 9 ⟨some [⟨Expr.basic 2 0 0⟩]⟩]
      ⟨5, 25, [Expr.basic 1 10 20]⟩).2.2
      0 (Expr.basic 1 10 20) ⟨⟨some "p", "T"⟩, false⟩ false
      ⟨some [⟨Expr.basic 2 0 0⟩]⟩ [⟨Expr.basic 2 0 0⟩] ⟨Expr.basic 2 0 0⟩
      rfl rfl (by simp) rfl rfl rfl rfl rfl⟩

end Stubmethods
